import Mathlib

/-!
Verification of the on-device crop-disease inference pipeline of a mobile
client (TypeScript / TensorFlow.js).  The development shallowly embeds the
core modules:

* `utils/diseaseMapping.ts` — the label mapper (`DISEASE_MAPPINGS`,
  `mapLocalToBackend`, `mapBackendToLocal`, `isHealthyPrediction`,
  `validateMappings`);
* `scripts/validateMapping.ts` — `validateModelCoverage`;
* `services/imageToTensor.ts` — the image normalizer with its retry /
  fallback structure and tensor lifetime accounting;
* `services/predictImage.ts` — the inference engine (score reconciliation,
  arg-max decoding) and `hooks/useTfModel.ts` — the model loader, together
  with `utils/modelUtils.ts` (`ModelValidator.validateModel`).

Numeric scores are embedded as rationals, byte data as naturals, and the
effectful boundaries (image manipulator, filesystem, the model's forward
pass) as explicit parameters of the embedded functions.  Tensor creation
and disposal are mirrored by a live-buffer counter so that the resource
discipline of the code can be stated and checked.
-/

/-- Whether the first character list is a prefix of the second. -/
def charsPrefixB : List Char → List Char → Bool
  | [], _ => true
  | _ :: _, [] => false
  | a :: as, b :: bs => a == b && charsPrefixB as bs

/-- Whether the first character list occurs contiguously inside the
second. -/
def charsSubB : List Char → List Char → Bool
  | t, [] => t.isEmpty
  | t, b :: bs => charsPrefixB t (b :: bs) || charsSubB t bs

/-- JavaScript `String.prototype.includes`: `strIncludes s t` is true when
`t` occurs as a contiguous substring of `s`. -/
def strIncludes (s t : String) : Bool :=
  charsSubB t.data s.data

/-- Index of the maximum value of a list, ties resolved to the lowest index
(the contract of `tf.argMax`).  Returns 0 on the empty list. -/
def argmaxIdx : List ℚ → Nat
  | [] => 0
  | [_] => 0
  | x :: y :: ys =>
      let j := argmaxIdx (y :: ys)
      if x < (y :: ys).getD j 0 then j + 1 else 0

/-- Crop types of `types/api.ts` (`CropType`): string enum with lowercase
values. -/
inductive CropType where
  | cashew
  | cassava
  | maize
  | tomato
deriving DecidableEq, Repr

/-- The string value of a `CropType` member (`'cashew'`, `'cassava'`,
`'maize'`, `'tomato'`). -/
def CropType.str : CropType → String
  | .cashew => "cashew"
  | .cassava => "cassava"
  | .maize => "maize"
  | .tomato => "tomato"

/-- `utils/diseaseMapping.ts`: interface `DiseaseMapping`. -/
structure DiseaseMapping where
  localLabel : String
  backendDiseaseName : String
  cropType : CropType
  isHealthy : Bool
deriving DecidableEq, Repr

/-- `utils/diseaseMapping.ts`: the `DISEASE_MAPPINGS` table, verbatim. -/
def DISEASE_MAPPINGS : List DiseaseMapping := [
  -- CASHEW DISEASES
  ⟨"Cashew - Anthracnose", "anthracnose", .cashew, false⟩,
  ⟨"Cashew - Gumosis", "gumosis", .cashew, false⟩,
  ⟨"Cashew - Healthy", "healthy", .cashew, true⟩,
  ⟨"Cashew - Leaf Miner", "leaf_miner", .cashew, false⟩,
  ⟨"Cashew - Red Rust", "red_rust", .cashew, false⟩,
  -- CASSAVA DISEASES
  ⟨"Cassava - Bacterial Blight", "bacterial_blight", .cassava, false⟩,
  ⟨"Cassava - Brown Spot", "brown_spot", .cassava, false⟩,
  ⟨"Cassava - Green Mite", "green_mite", .cassava, false⟩,
  ⟨"Cassava - Healthy", "healthy", .cassava, true⟩,
  ⟨"Cassava - Mosaic", "mosaic", .cassava, false⟩,
  -- MAIZE DISEASES
  ⟨"Maize - Fall Armyworm", "fall_armyworm", .maize, false⟩,
  ⟨"Maize - Grasshopper", "grasshopper", .maize, false⟩,
  ⟨"Maize - Healthy", "healthy", .maize, true⟩,
  ⟨"Maize - Leaf Beetle", "leaf_beetle", .maize, false⟩,
  ⟨"Maize - Leaf Blight", "leaf_blight", .maize, false⟩,
  ⟨"Maize - Leaf Spot", "leaf_spot", .maize, false⟩,
  ⟨"Maize - Streak Virus", "streak_virus", .maize, false⟩,
  -- TOMATO DISEASES
  ⟨"Tomato - Healthy", "healthy", .tomato, true⟩,
  ⟨"Tomato - Leaf Blight", "leaf_blight", .tomato, false⟩,
  ⟨"Tomato - Leaf Curl", "leaf_curl", .tomato, false⟩,
  ⟨"Tomato - Septoria Leaf Spot", "septoria_leaf_spot", .tomato, false⟩,
  ⟨"Tomato - Verticillium Wilt", "verticillium_wilt", .tomato, false⟩]

/-- `localToBackendMap.get(localLabel) || null`.  The map is populated by a
`forEach` of `Map.set` calls over `DISEASE_MAPPINGS`, so for a repeated key
the record set last wins; this is exactly the last record of the table
whose `localLabel` equals the key. -/
def mapLocalToBackend (localLabel : String) : Option DiseaseMapping :=
  (DISEASE_MAPPINGS.filter (fun m => m.localLabel == localLabel)).getLast?

/-- `backendToLocalMap.get(backendDiseaseName) || null`, built by the same
`forEach`: the last record of the table with the given backend name. -/
def mapBackendToLocal (backendDiseaseName : String) : Option DiseaseMapping :=
  (DISEASE_MAPPINGS.filter (fun m => m.backendDiseaseName == backendDiseaseName)).getLast?

/-- `utils/diseaseMapping.ts`: `isHealthyPrediction`, i.e.
`mapping?.isHealthy || false`. -/
def isHealthyPrediction (localLabel : String) : Bool :=
  match mapLocalToBackend localLabel with
  | none => false
  | some m => m.isHealthy || false

/-- The round trip of the spec's invertibility property: map a local label
to its backend disease name and back, returning the resulting local
label. -/
def roundTripLocal (localLabel : String) : Option String :=
  ((mapLocalToBackend localLabel).bind
    (fun m => mapBackendToLocal m.backendDiseaseName)).map (fun m => m.localLabel)

/-- `validateMappings`' crop-type consistency test for one record:
`expectedCrop.includes(actualCrop) || actualCrop.includes(expectedCrop)`
where `expectedCrop = localLabel.split(' - ')[0].toLowerCase()` and
`actualCrop = cropType.toLowerCase()`. -/
def cropConsistentB (m : DiseaseMapping) : Bool :=
  let expectedCrop := ((m.localLabel.splitOn " - ").headD "").toLower
  let actualCrop := m.cropType.str.toLower
  strIncludes expectedCrop actualCrop || strIncludes actualCrop expectedCrop

/-- Error-accumulating loop of `validateMappings`: `seenLocals` and
`seenBackends` play the role of the two `Set`s; each record contributes a
duplicate-local error, a duplicate-backend error and a crop-mismatch error
in the order of the source. -/
def vmGo (seenLocals seenBackends : List String) :
    List DiseaseMapping → List String
  | [] => []
  | m :: rest =>
      (if m.localLabel ∈ seenLocals
        then ["Duplicate local label: " ++ m.localLabel] else []) ++
      (if m.backendDiseaseName ∈ seenBackends
        then ["Duplicate backend name: " ++ m.backendDiseaseName] else []) ++
      (if cropConsistentB m then []
        else ["Crop type mismatch for " ++ m.localLabel]) ++
      vmGo (m.localLabel :: seenLocals) (m.backendDiseaseName :: seenBackends) rest

/-- `utils/diseaseMapping.ts`: `validateMappings`, generalized over the
table it scans (the source hardcodes `DISEASE_MAPPINGS`).  Returns
`(valid, errors)` with `valid = (errors.length === 0)`. -/
def validateMappings (table : List DiseaseMapping) : Bool × List String :=
  let errors := vmGo [] [] table
  (errors.isEmpty, errors)

/-- `scripts/validateMapping.ts`: `validateModelCoverage`, generalized over
the mapping table and the model label list (the source closes over
`DISEASE_MAPPINGS` and `readableLabels`). -/
def validateModelCoverage (table : List DiseaseMapping)
    (labels : List String) : Bool × List String :=
  let mappedLabels := table.map (fun m => m.localLabel)
  let missing := (labels.filter (fun l => !(mappedLabels.contains l))).map
    (fun l => "Missing mapping for model label: " ++ l)
  let orphan := (table.filter (fun m => !(labels.contains m.localLabel))).map
    (fun m => "Mapping exists for non-existent model label: " ++ m.localLabel)
  let errors := missing ++ orphan
  (errors.isEmpty, errors)

/-- Modelled from the spec: `constants/labels.ts` (`readableLabels`) is not
under `src/`; the spec fixes the ClassLabel table as an ordered list of
N = 22 class names in bijection with the mapping vocabulary (spec sections
3 and 8), index-aligned with the model's output vector. -/
def readableLabels : List String := [
  "Cashew - Anthracnose",
  "Cashew - Gumosis",
  "Cashew - Healthy",
  "Cashew - Leaf Miner",
  "Cashew - Red Rust",
  "Cassava - Bacterial Blight",
  "Cassava - Brown Spot",
  "Cassava - Green Mite",
  "Cassava - Healthy",
  "Cassava - Mosaic",
  "Maize - Fall Armyworm",
  "Maize - Grasshopper",
  "Maize - Healthy",
  "Maize - Leaf Beetle",
  "Maize - Leaf Blight",
  "Maize - Leaf Spot",
  "Maize - Streak Virus",
  "Tomato - Healthy",
  "Tomato - Leaf Blight",
  "Tomato - Leaf Curl",
  "Tomato - Septoria Leaf Spot",
  "Tomato - Verticillium Wilt"]

/-- JavaScript `String.prototype.trim`: strips whitespace from both ends
(written by structural recursion on the character list so that it can be
evaluated on concrete inputs). -/
def strTrim (s : String) : String :=
  ⟨((s.data.dropWhile Char.isWhitespace).reverse.dropWhile Char.isWhitespace).reverse⟩

/-- A decoded pixel image: `decodeJpeg` always yields a rank-3 tensor of
shape `[h, w, c]` (its return type is `Tensor3D`), so a decoded tensor is
represented by its spatial dimensions, channel count and flat byte data. -/
structure PixelImage where
  h : Nat
  w : Nat
  c : Nat
  data : List Nat
deriving DecidableEq, Repr

/-- Outcome of a successful `ImageManipulator.manipulateAsync` call: the
`base64` field may be absent, and decoding the returned base64 yields a
pixel image (`atob` + `decodeJpeg` of a freshly encoded JPEG succeed, so
they are folded into the image itself). -/
structure ManipResult where
  hasBase64 : Bool
  image : PixelImage
deriving DecidableEq, Repr

/-- Environment of one `imageToTensor` call: the photo URI and the
behaviour of the effectful collaborators (image manipulator per attempt,
filesystem read, decode of the raw file bytes, and `tf.image.resizeBilinear`
whose output spatial dimensions are the requested 224×224 by contract). -/
structure ImgEnv where
  uri : String
  manipulate : Nat → Option ManipResult
  fsReadOk : Bool
  fallbackImage : Option PixelImage
  resizeBilinear : PixelImage → PixelImage

/-- Observable trace of one normalization call: number of manipulator
attempts, the backoff delays awaited between attempts (ms), how many times
the alternative (direct-read) path ran, how many explicit bilinear resizes
ran, and the number of live (created and not disposed) tensors. -/
structure Trace where
  attempts : Nat
  delays : List Nat
  fallbackCalls : Nat
  resizeCalls : Nat
  live : Nat
deriving DecidableEq, Repr

/-- The empty trace. -/
def Trace.init : Trace := ⟨0, [], 0, 0, 0⟩

/-- Failure reasons of the pipeline; `allFailed` mirrors
`processImageAlternative`'s catch-all wrapping (`All image processing
methods failed. Original error: ...`). -/
inductive Err where
  | emptyUri
  | noBase64
  | invalidShape (shape : List Nat)
  | readFailed
  | decodeFailed
  | insufficientClasses (got : Nat)
  | allFailed (inner : Err)
deriving DecidableEq, Repr

/-- A normalized tensor: shape plus values (model input values are the
pixel bytes divided by 255). -/
structure NormTensor where
  shape : List Nat
  values : List ℚ
deriving DecidableEq, Repr

/-- `services/imageToTensor.ts`: `processImageAlternative`.  Reads the raw
file bytes, decodes them, bilinear-resizes only when the decoded spatial
dimensions differ from 224×224, validates rank/channels, then appends the
batch dimension and divides by 255.  Every tensor creation bumps
`Trace.live` and every `dispose()` decrements it; any inner failure is
wrapped in `Err.allFailed` by the function's catch block. -/
def processImageAlternative (env : ImgEnv) (tr : Trace) :
    Except Err NormTensor × Trace :=
  let tr0 : Trace := { tr with fallbackCalls := tr.fallbackCalls + 1 }
  if env.fsReadOk = false then
    -- FileSystem.readAsStringAsync threw: rethrown, then wrapped by the catch
    (.error (.allFailed .readFailed), tr0)
  else
    match env.fallbackImage with
    | none =>
        -- decodeJpeg threw on the raw bytes: wrapped by the catch
        (.error (.allFailed .decodeFailed), tr0)
    | some img =>
        -- imageTensor = decodeJpeg(rawBytes)
        let tr1 : Trace := { tr0 with live := tr0.live + 1 }
        -- resize to 224x224 only if needed; resizeBilinear allocates, then
        -- the original imageTensor is disposed
        let step :=
          if img.h ≠ 224 ∨ img.w ≠ 224 then
            (PixelImage.mk 224 224 img.c (env.resizeBilinear img).data,
             { tr1 with resizeCalls := tr1.resizeCalls + 1,
                        live := tr1.live + 1 - 1 })
          else (img, tr1)
        let rimg := step.1
        let tr2 := step.2
        -- validate: shape.length === 3 (by rank) and shape[2] === 3
        if rimg.c ≠ 3 then
          (.error (.allFailed (.invalidShape [rimg.h, rimg.w, rimg.c])),
           { tr2 with live := tr2.live - 1 })
        else
          -- expandDims(0) and div(255) each allocate; resizedTensor disposed
          (.ok ⟨[1, 224, 224, 3], rimg.data.map (fun b => (b : ℚ) / 255)⟩,
           { tr2 with live := tr2.live + 2 - 1 })

/-- The retry loop of `imageToTensor` followed by the decode of the
successful attempt.  `retryCount < maxRetries = 3`; a failed attempt
increments `retryCount`, switches to `processImageAlternative` once
`retryCount` reaches 3, and otherwise awaits `200 * retryCount` ms before
retrying.  On a successful attempt the loop breaks and the base64 payload
is decoded, validated (rank 3, channel 3) and normalized.  The first
argument is structural-recursion fuel, invariantly `3 - retryCount` (the
fuel-0 arm coincides with the loop-exit arm, reachable only when
`retryCount ≥ 3`). -/
def primaryLoop (env : ImgEnv) : Nat → Nat → Trace →
    Except Err NormTensor × Trace
  | 0, _, tr =>
      -- the loop can only be left with `resized` unset on this path
      (.error .noBase64, tr)
  | fuel + 1, retryCount, tr =>
      if retryCount < 3 then
        match env.manipulate retryCount with
        | some r =>
            let tr1 : Trace := { tr with attempts := tr.attempts + 1 }
            if r.hasBase64 = false then
              -- `if (!resized || !resized.base64) throw ...`
              (.error .noBase64, tr1)
            else
              let img := r.image
              -- imageTensor = decodeJpeg(rawBytes)
              let tr2 : Trace := { tr1 with live := tr1.live + 1 }
              if img.c ≠ 3 then
                -- validation failure: imageTensor disposed, then throw
                (.error (.invalidShape [img.h, img.w, img.c]),
                 { tr2 with live := tr2.live - 1 })
              else
                -- expandDims(0) and div(255) allocate; imageTensor disposed
                (.ok ⟨[1, img.h, img.w, 3], img.data.map (fun b => (b : ℚ) / 255)⟩,
                 { tr2 with live := tr2.live + 2 - 1 })
        | none =>
            let tr1 : Trace := { tr with attempts := tr.attempts + 1 }
            let rc := retryCount + 1
            if 3 ≤ rc then processImageAlternative env tr1
            else primaryLoop env fuel rc { tr1 with delays := tr1.delays ++ [200 * rc] }
      else (.error .noBase64, tr)

/-- `services/imageToTensor.ts`: `imageToTensor`.  Empty or blank URIs are
rejected; URIs of permanent files (`files/crop_image_`,
`files/gallery_image_`) go straight to the alternative path; otherwise the
primary manipulate/decode loop runs (the 100 ms settle delay for camera
URIs has no observable effect and is omitted). -/
def imageToTensor (env : ImgEnv) : Except Err NormTensor × Trace :=
  if strTrim env.uri = "" then (.error .emptyUri, Trace.init)
  else if strIncludes env.uri "files/crop_image_"
       || strIncludes env.uri "files/gallery_image_" then
    processImageAlternative env Trace.init
  else
    primaryLoop env 3 0 Trace.init

/-- The raw output tensor of the forward pass: declared shape and the flat
data read by `prediction.data()`. -/
structure RawTensor where
  shape : List Nat
  data : List ℚ
deriving DecidableEq, Repr

/-- `tf.Tensor.squeeze()`: removes all size-1 dimensions from the shape
(the flat data is unchanged). -/
def squeezeShape (shape : List Nat) : List Nat :=
  shape.filter (fun d => d ≠ 1)

/-- Size of the last axis of a shape (1 for a scalar shape). -/
def lastDim (shape : List Nat) : Nat :=
  shape.getLastD 1

/-- The shape of `processedPrediction` in `predictImage`: the prediction is
squeezed only when the raw score count differs from 22 and the tensor has
more than one dimension. -/
def procShape (raw : RawTensor) : List Nat :=
  if raw.data.length = 22 then raw.shape
  else if raw.shape.length > 1 then squeezeShape raw.shape
  else raw.shape

/-- Score reconciliation of `predictImage`: a raw read of exactly 22
scores is kept; a longer one is truncated to its first 22 values (squeezing
never changes the flat data, hence not the length); a shorter one throws
`Insufficient output classes`. -/
def reconcileScores (data : List ℚ) : Except Err (List ℚ) :=
  if data.length = 22 then .ok data
  else if data.length > 22 then .ok (data.take 22)
  else .error (.insufficientClasses data.length)

/-- `processedPrediction.argMax(-1).dataSync()[0]`: the arg-max along the
last axis of the (possibly squeezed) prediction tensor, of which element 0
is read — i.e. the first-occurrence arg-max of the first `lastDim` entries
of the flat data. -/
def classIndexOf (raw : RawTensor) : Nat :=
  argmaxIdx (raw.data.take (lastDim (procShape raw)))

/-- One entry of `topPredictions`. -/
structure TopPrediction where
  label : Option String
  confidence : ℚ
  classIndex : Nat
deriving DecidableEq, Repr

/-- `services/predictImage.ts`: interface `PredictionResult`.  `label` and
`confidence` are options because a `classIndex` beyond the reconciled
array reads as JavaScript `undefined`. -/
structure PredictionResult where
  label : Option String
  confidence : Option ℚ
  classIndex : Nat
  allScores : List ℚ
  topPredictions : List TopPrediction
deriving DecidableEq, Repr

/-- Environment of one `predictImage` call: whether the `model` argument
is non-null, the image-normalization environment, and the outcome of
`model.predict` (`none` when the forward pass throws). -/
structure PredEnv where
  model : Bool
  img : ImgEnv
  forward : Option RawTensor

/-- `topPredictions`: every reconciled score paired with its label and
index, sorted by descending confidence (JavaScript's stable sort), first
three kept. -/
def topPredictionsOf (scores : List ℚ) : List TopPrediction :=
  ((scores.enum.map (fun p => TopPrediction.mk (readableLabels.get? p.1) p.2 p.1)).mergeSort
    (fun a b => b.confidence ≤ a.confidence)).take 3

/-- `services/predictImage.ts`: `predictImage`.  Returns the prediction
result (or `null`) together with the number of tensors created during the
call (its own and those of the nested `imageToTensor`) that were never
disposed.  A null model short-circuits; every thrown error is caught by
the enclosing try/catch, which logs and returns `null` without disposing
anything; on the success path the input tensor, the raw prediction and the
squeezed prediction (when distinct) are disposed, but the tensor allocated
by `argMax` is not. -/
def predictImage (env : PredEnv) : Option PredictionResult × Nat :=
  if env.model = false then (none, 0)
  else
    match imageToTensor env.img with
    | (.error _, tr) => (none, tr.live)
    | (.ok _, tr) =>
        match env.forward with
        | none => (none, tr.live)
        | some raw =>
            -- prediction = model.predict(tensor)
            let live1 := tr.live + 1
            -- squeeze allocates only when it runs
            let squeezed : Bool := raw.data.length ≠ 22 ∧ raw.shape.length > 1
            let live2 := live1 + (if squeezed then 1 else 0)
            match reconcileScores raw.data with
            | .error _ => (none, live2)
            | .ok scores =>
                let classIndex := classIndexOf raw
                -- argMax allocates a tensor that is never disposed
                let live3 := live2 + 1
                let confidence := scores.get? classIndex
                let label := readableLabels.get? classIndex
                -- tensor, prediction and the distinct squeezed tensor are
                -- disposed before the result is built
                let live4 := live3 - 1 - 1 - (if squeezed then 1 else 0)
                (some ⟨label, confidence, classIndex, scores,
                       topPredictionsOf scores⟩, live4)

/-- Shape metadata of one model input/output as declared by the graph
model: possibly absent altogether, and each dimension possibly unknown. -/
structure TensorSpec where
  shape : Option (List (Option Nat))
deriving DecidableEq, Repr

/-- A loaded graph model: its declared inputs and outputs. -/
structure GraphModel where
  inputs : List TensorSpec
  outputs : List TensorSpec
deriving DecidableEq, Repr

/-- `utils/modelUtils.ts`: `ModelValidator.validateModel`.  Fails only for
zero declared inputs, zero declared outputs, or a declared rank-0 output
shape; an absent output shape, absent dimensions and mismatched dimensions
(input not 224×224×3, classes ≠ 22) merely log warnings and validation
succeeds. -/
def validateModel (m : GraphModel) : Bool :=
  match m.inputs, m.outputs with
  | [], _ => false
  | _ :: _, [] => false
  | _ :: _, o :: _ =>
      match o.shape with
      | none => true
      | some s => if s.length < 1 then false else true

/-- Loader state exposed by `useTfModel`: model handle, readiness flag,
error message and progress narration. -/
structure LoadState where
  model : Option GraphModel
  ready : Bool
  error : Option String
  loadingProgress : String
deriving DecidableEq, Repr

/-- `hooks/useTfModel.ts`: the `load` routine.  `assemble` is the outcome
of deserializing and assembling the bundled artifacts (`tf.loadGraphModel`);
`smokeTestResult` is the boolean returned by
`ModelValidator.testModelPrediction`, which the source only warns about
(`if (!testPassed) console.warn(...)`) — it does not influence the stored
state.  A validation failure throws, and the catch block records the error
message, clears readiness and sets the `Failed` narration. -/
def loadModel (assemble : Except String GraphModel)
    (smokeTestResult : Bool) : LoadState :=
  match assemble with
  | .error e => ⟨none, false, some e, "Failed"⟩
  | .ok m =>
      if validateModel m = false then
        ⟨none, false, some "Model validation failed", "Failed"⟩
      else
        -- testPassed is only warned about, never acted on
        let _testPassed := smokeTestResult
        ⟨some m, true, none, "Ready"⟩

/-- Auxiliary: a successful `mapLocalToBackend` lookup returns a record of
the table whose local label is the looked-up one. -/
theorem mapLocalToBackend_some {l : String} {m : DiseaseMapping}
    (h : mapLocalToBackend l = some m) :
    m ∈ DISEASE_MAPPINGS ∧ m.localLabel = l := by
  have hmem := List.mem_of_mem_getLast? h
  have := List.mem_filter.mp hmem
  exact ⟨this.1, by simpa using this.2⟩

/-- Auxiliary: `mapLocalToBackend` misses exactly when no record of the
table carries the local label. -/
theorem mapLocalToBackend_none_iff (l : String) :
    mapLocalToBackend l = none ↔ ∀ m ∈ DISEASE_MAPPINGS, m.localLabel ≠ l := by
  unfold mapLocalToBackend
  rw [List.getLast?_eq_none_iff, List.filter_eq_nil_iff]
  simp

/-- C1 counterexample: the claim fails on the code.  The record
`"Cashew - Healthy"` is in `DISEASE_MAPPINGS`, but because the
backend-to-local map is built last-wins and four records share the backend
name `"healthy"`, the round trip lands on `"Tomato - Healthy"`. -/
theorem roundTrip_fails_on_cashew_healthy :
    (⟨"Cashew - Healthy", "healthy", .cashew, true⟩ : DiseaseMapping) ∈ DISEASE_MAPPINGS
    ∧ roundTripLocal "Cashew - Healthy" = some "Tomato - Healthy"
    ∧ roundTripLocal "Cashew - Healthy" ≠ some "Cashew - Healthy" := by
  refine ⟨by decide, by decide, by decide⟩

/-- C1 (amended): the round trip `toLocal (toExternal localLabel).externalId`
returns the original local label exactly for the records whose backend
disease name is unique in the table; records sharing a backend name
(`healthy`, `leaf_blight`) map back to the last record with that name. -/
theorem roundTrip_of_unique_backend :
    ∀ m ∈ DISEASE_MAPPINGS,
      (DISEASE_MAPPINGS.filter
        (fun x => x.backendDiseaseName == m.backendDiseaseName)).length = 1 →
      roundTripLocal m.localLabel = some m.localLabel := by
  decide

/-- Witness for the amended C1 at the anthracnose record, whose backend
name occurs once. -/
theorem roundTrip_of_unique_backend_witness :
    roundTripLocal "Cashew - Anthracnose" = some "Cashew - Anthracnose" :=
  roundTrip_of_unique_backend ⟨"Cashew - Anthracnose", "anthracnose", .cashew, false⟩
    (by decide) (by decide)

/-- C5: `isHealthyPrediction` returns `false` for every local label with no
record in the mapping table (equivalently, whose lookup misses), and the
record's own `isHealthy` flag for every mapped label. -/
theorem isHealthyPrediction_spec (l : String) :
    ((∀ m ∈ DISEASE_MAPPINGS, m.localLabel ≠ l) → isHealthyPrediction l = false)
    ∧ (mapLocalToBackend l = none → isHealthyPrediction l = false)
    ∧ (∀ m, mapLocalToBackend l = some m →
        isHealthyPrediction l = m.isHealthy ∧ m ∈ DISEASE_MAPPINGS ∧ m.localLabel = l) := by
  refine ⟨fun hnone => ?_, fun hnone => ?_, fun m hm => ?_⟩
  · have h0 : mapLocalToBackend l = none := (mapLocalToBackend_none_iff l).mpr hnone
    simp [isHealthyPrediction, h0]
  · simp [isHealthyPrediction, hnone]
  · refine ⟨?_, mapLocalToBackend_some hm⟩
    simp [isHealthyPrediction, hm]

/-- Witness for C5: a mapped healthy label, a mapped diseased label and an
unmapped label, each evaluated through `isHealthyPrediction_spec`. -/
theorem isHealthyPrediction_spec_witness :
    isHealthyPrediction "Banana - Healthy" = false
    ∧ isHealthyPrediction "Cashew - Healthy" = true
    ∧ isHealthyPrediction "Cassava - Mosaic" = false :=
  ⟨(isHealthyPrediction_spec "Banana - Healthy").2.1 (by decide),
   by
    have := ((isHealthyPrediction_spec "Cashew - Healthy").2.2
      ⟨"Cashew - Healthy", "healthy", .cashew, true⟩ (by decide)).1
    simpa using this,
   by
    have := ((isHealthyPrediction_spec "Cassava - Mosaic").2.2
      ⟨"Cassava - Mosaic", "mosaic", .cassava, false⟩ (by decide)).1
    simpa using this⟩

/-- Auxiliary: the error list of `validateMappings`' loop is empty exactly
when, relative to the already-seen keys, local labels are fresh and
duplicate-free, backend names are fresh and duplicate-free, and every
record passes the crop-consistency test. -/
theorem vmGo_eq_nil_iff (t : List DiseaseMapping) : ∀ sL sB,
    vmGo sL sB t = [] ↔
      ((∀ m ∈ t, m.localLabel ∉ sL)
        ∧ (t.map (fun m => m.localLabel)).Nodup)
      ∧ ((∀ m ∈ t, m.backendDiseaseName ∉ sB)
        ∧ (t.map (fun m => m.backendDiseaseName)).Nodup)
      ∧ (∀ m ∈ t, cropConsistentB m = true) := by
  induction t with
  | nil => simp [vmGo]
  | cons m rest ih =>
      intro sL sB
      simp only [vmGo, List.append_eq_nil, ih, List.nodup_cons, List.mem_map,
        List.mem_cons, List.map_cons, forall_eq_or_imp]
      by_cases h1 : m.localLabel ∈ sL <;> by_cases h2 : m.backendDiseaseName ∈ sB <;>
        by_cases h3 : cropConsistentB m = true <;>
        (simp [h1, h2, h3, not_or] <;> aesop)

/-- Auxiliary: `validateMappings` reports valid exactly when the table has
pairwise-distinct local labels, pairwise-distinct backend names and
crop-consistent records. -/
theorem validateMappings_valid_iff (t : List DiseaseMapping) :
    (validateMappings t).1 = true ↔
      (t.map (fun m => m.localLabel)).Nodup
      ∧ (t.map (fun m => m.backendDiseaseName)).Nodup
      ∧ (∀ m ∈ t, cropConsistentB m = true) := by
  simp [validateMappings, List.isEmpty_iff, vmGo_eq_nil_iff]

/-- Auxiliary: `validateModelCoverage` reports valid exactly when every
model label has a mapping and every mapping's label is a model label. -/
theorem validateModelCoverage_valid_iff (t : List DiseaseMapping)
    (labels : List String) :
    (validateModelCoverage t labels).1 = true ↔
      (∀ l ∈ labels, l ∈ t.map (fun m => m.localLabel))
      ∧ (∀ m ∈ t, m.localLabel ∈ labels) := by
  simp [validateModelCoverage, List.isEmpty_iff, List.filter_eq_nil_iff]

/-- C6: the two validators jointly report valid with an empty error list
exactly when the checked mapping table has no duplicate local label, no
duplicate backend name, crop-type consistency for every record, and
two-sided coverage of the class-label table; and, as in scenario D,
dropping the `"Cassava - Mosaic"` record makes coverage fail with an error
naming the missing label. -/
theorem validate_valid_iff :
    (∀ (t : List DiseaseMapping) (labels : List String),
      ((validateMappings t).1 = true ∧ (validateModelCoverage t labels).1 = true) ↔
        ((t.map (fun m => m.localLabel)).Nodup
          ∧ (t.map (fun m => m.backendDiseaseName)).Nodup
          ∧ (∀ m ∈ t, cropConsistentB m = true)
          ∧ (∀ l ∈ labels, l ∈ t.map (fun m => m.localLabel))
          ∧ (∀ m ∈ t, m.localLabel ∈ labels)))
    ∧ (∀ t, (validateMappings t).1 = true ↔ (validateMappings t).2 = [])
    ∧ ((validateModelCoverage
          (DISEASE_MAPPINGS.filter (fun m => m.localLabel != "Cassava - Mosaic"))
          readableLabels).1 = false
        ∧ "Missing mapping for model label: Cassava - Mosaic" ∈
            (validateModelCoverage
              (DISEASE_MAPPINGS.filter (fun m => m.localLabel != "Cassava - Mosaic"))
              readableLabels).2) := by
  refine ⟨fun t labels => ?_, fun t => ?_, by decide, by decide⟩
  · rw [validateMappings_valid_iff, validateModelCoverage_valid_iff]
    tauto
  · simp [validateMappings, List.isEmpty_iff]

/-- Auxiliary: the arg-max index of a nonempty list is in range. -/
theorem argmaxIdx_lt_length (l : List ℚ) (h : l ≠ []) : argmaxIdx l < l.length := by
  induction l with
  | nil => simp at h
  | cons x t ih =>
    cases t with
    | nil => simp [argmaxIdx]
    | cons y ys =>
      show (if x < (y :: ys).getD (argmaxIdx (y :: ys)) 0 then argmaxIdx (y :: ys) + 1 else 0)
        < (x :: y :: ys).length
      have := ih (by simp)
      split <;> simp_all

theorem getD_le_argmaxIdx (l : List ℚ) : ∀ j, j < l.length →
    l.getD j 0 ≤ l.getD (argmaxIdx l) 0 := by
  induction l with
  | nil => simp
  | cons x t ih =>
    cases t with
    | nil =>
      intro j hj
      have : j = 0 := by simpa using Nat.lt_one_iff.mp (by simpa using hj)
      simp [this, argmaxIdx]
    | cons y ys =>
      intro j hj
      show (x :: y :: ys).getD j 0 ≤ (x :: y :: ys).getD
        (if x < (y :: ys).getD (argmaxIdx (y :: ys)) 0 then argmaxIdx (y :: ys) + 1 else 0) 0
      by_cases hc : x < (y :: ys).getD (argmaxIdx (y :: ys)) 0
      · simp only [hc, if_true, List.getD_cons_succ]
        cases j with
        | zero => simpa using le_of_lt hc
        | succ j' => simpa using ih j' (by simpa using hj)
      · simp only [hc, if_false, List.getD_cons_zero]
        cases j with
        | zero => simp
        | succ j' =>
          have h1 := ih j' (by simpa using hj)
          have h2 : (y :: ys).getD (argmaxIdx (y :: ys)) 0 ≤ x := not_lt.mp hc
          simpa using h1.trans h2

theorem getD_lt_of_lt_argmaxIdx (l : List ℚ) : ∀ j, j < argmaxIdx l →
    l.getD j 0 < l.getD (argmaxIdx l) 0 := by
  induction l with
  | nil => simp [argmaxIdx]
  | cons x t ih =>
    cases t with
    | nil => simp [argmaxIdx]
    | cons y ys =>
      intro j hj
      have hrw : argmaxIdx (x :: y :: ys) =
          if x < (y :: ys).getD (argmaxIdx (y :: ys)) 0
          then argmaxIdx (y :: ys) + 1 else 0 := rfl
      rw [hrw] at hj ⊢
      by_cases hc : x < (y :: ys).getD (argmaxIdx (y :: ys)) 0
      · simp only [hc, if_true, List.getD_cons_succ] at hj ⊢
        cases j with
        | zero => simpa using hc
        | succ j' =>
          have hj' : j' < argmaxIdx (y :: ys) := by omega
          simpa using ih j' hj'
      · simp only [hc, if_false] at hj
        omega

theorem argmaxIdx_unique (l : List ℚ) (i : Nat) (hi : i < l.length)
    (hmax : ∀ j, j < l.length → l.getD j 0 ≤ l.getD i 0)
    (hfirst : ∀ j, j < i → l.getD j 0 < l.getD i 0) :
    argmaxIdx l = i := by
  have hne : l ≠ [] := by
    intro h
    subst h
    simp at hi
  have ha := argmaxIdx_lt_length l hne
  rcases Nat.lt_trichotomy (argmaxIdx l) i with h | h | h
  · have h1 := hfirst (argmaxIdx l) h
    have h2 := getD_le_argmaxIdx l i hi
    exact absurd (h1.trans_le h2) (lt_irrefl _)
  · exact h
  · have h1 := getD_lt_of_lt_argmaxIdx l i h
    have h2 := hmax (argmaxIdx l) ha
    exact absurd (h1.trans_le h2) (lt_irrefl _)

theorem argmaxIdx_take (l : List ℚ) (k : Nat) (hk : argmaxIdx l < k) :
    argmaxIdx (l.take k) = argmaxIdx l := by
  rcases eq_or_ne l [] with rfl | hne
  · simp
  · have ha := argmaxIdx_lt_length l hne
    have hget : ∀ j, j < k → (l.take k).getD j 0 = l.getD j 0 := by
      intro j hj
      simp [List.getD_eq_getElem?_getD, List.getElem?_take, hj]
    refine argmaxIdx_unique _ _ ?_ ?_ ?_
    · simpa using ⟨hk, ha⟩
    · intro j hj
      simp only [List.length_take, lt_min_iff] at hj
      rw [hget j hj.1, hget _ hk]
      exact getD_le_argmaxIdx l j hj.2
    · intro j hj
      rw [hget j (hj.trans hk), hget _ hk]
      exact getD_lt_of_lt_argmaxIdx l j hj

/-- Decidable equality for `Except`, needed to evaluate the embedded
fallible functions on concrete inputs. -/
def exceptDecEq {e a : Type} [DecidableEq e] [DecidableEq a] :
    (x y : Except e a) → Decidable (x = y)
  | .error x, .error y =>
      if h : x = y then .isTrue (by rw [h]) else .isFalse (by simp [h])
  | .error _, .ok _ => .isFalse (by simp)
  | .ok _, .error _ => .isFalse (by simp)
  | .ok x, .ok y =>
      if h : x = y then .isTrue (by rw [h]) else .isFalse (by simp [h])

instance {e a : Type} [DecidableEq e] [DecidableEq a] : DecidableEq (Except e a) :=
  exceptDecEq

/-- An image environment on which normalization succeeds at the first
manipulator attempt with a 224×224×3 decode. -/
def imgEnvOk : ImgEnv :=
  ⟨"photo.jpg", fun _ => some ⟨true, ⟨224, 224, 3, []⟩⟩, true, none, id⟩

/-- A raw output of length 30 whose maximum among the first 22 values sits
at index 5 (value 9) while the overall maximum sits at index 25
(value 10). -/
def rawTail30 : RawTensor :=
  ⟨[1, 30], [0, 0, 0, 0, 0, 9, 0, 0, 0, 0,
             0, 0, 0, 0, 0, 0, 0, 0, 0, 0,
             0, 0, 0, 0, 0, 10, 0, 0, 0, 0]⟩

set_option maxRecDepth 8000 in
/-- C2 counterexample: the claim fails on the code.  For a raw output of
length 30 whose maximum among the first 22 values is at index 5, the
reconciled scores are the first 22 values with arg-max 5, but the code
takes the arg-max over the full squeezed 30-value tensor, so `classIndex`
is 25, not 5; the full `predictImage` call reports `classIndex = 25`. -/
theorem classIndex_not_reconciled_argmax :
    reconcileScores rawTail30.data = .ok (rawTail30.data.take 22)
    ∧ argmaxIdx (rawTail30.data.take 22) = 5
    ∧ classIndexOf rawTail30 = 25
    ∧ ((predictImage ⟨true, imgEnvOk, some rawTail30⟩).1.map
        (fun r => r.classIndex)) = some 25
    ∧ (25 : Nat) ≠ 5 := by
  refine ⟨by decide, by decide, by decide, by decide, by decide⟩

/-- C2 (amended): whenever the squeezed prediction is one-dimensional (its
last axis covers the whole flat data), `classIndex` is the
first-occurrence arg-max over ALL post-squeeze output values, not over the
truncated 22; it agrees with the arg-max of the reconciled scores exactly
when the overall maximum already lies in the first 22 positions — in
particular always when the output length is exactly 22 — and the result
then carries `confidence = scores[classIndex]` and
`label = readableLabels[classIndex]` for the reconciled scores. -/
theorem classIndex_argmax_spec (raw : RawTensor)
    (h : lastDim (procShape raw) = raw.data.length) :
    classIndexOf raw = argmaxIdx raw.data
    ∧ (∀ j, j < raw.data.length →
        raw.data.getD j 0 ≤ raw.data.getD (classIndexOf raw) 0)
    ∧ (∀ j, j < classIndexOf raw →
        raw.data.getD j 0 < raw.data.getD (classIndexOf raw) 0)
    ∧ (argmaxIdx raw.data < 22 →
        ∀ s, reconcileScores raw.data = .ok s → classIndexOf raw = argmaxIdx s)
    ∧ (raw.data.length = 22 →
        ∀ s, reconcileScores raw.data = .ok s → classIndexOf raw = argmaxIdx s)
    ∧ (∀ (env : PredEnv) t tr, env.model = true →
        imageToTensor env.img = (.ok t, tr) → env.forward = some raw →
        ∀ s, reconcileScores raw.data = .ok s →
        (predictImage env).1 = some ⟨readableLabels.get? (classIndexOf raw),
          s.get? (classIndexOf raw), classIndexOf raw, s, topPredictionsOf s⟩) := by
  have hmain : classIndexOf raw = argmaxIdx raw.data := by
    unfold classIndexOf
    rw [h, List.take_length]
  refine ⟨hmain, ?_, ?_, ?_, ?_, ?_⟩
  · intro j hj
    rw [hmain]
    exact getD_le_argmaxIdx raw.data j hj
  · intro j hj
    rw [hmain] at hj ⊢
    exact getD_lt_of_lt_argmaxIdx raw.data j hj
  · intro hlt s hs
    unfold reconcileScores at hs
    by_cases h22 : raw.data.length = 22
    · rw [if_pos h22] at hs
      cases hs
      exact hmain
    · rw [if_neg h22] at hs
      by_cases hgt : raw.data.length > 22
      · rw [if_pos hgt] at hs
        cases hs
        rw [hmain, argmaxIdx_take raw.data 22 hlt]
      · rw [if_neg hgt] at hs
        cases hs
  · intro h22 s hs
    unfold reconcileScores at hs
    rw [if_pos h22] at hs
    cases hs
    exact hmain
  · intro env t tr hm himg hfwd s hs
    simp [predictImage, himg, hfwd, hs, hm]

set_option maxRecDepth 8000 in
/-- Witness for the amended C2: a one-dimensional raw output of length 22
with its maximum at index 1. -/
theorem classIndex_argmax_spec_witness :
    classIndexOf ⟨[1, 22], (List.replicate 21 (0 : ℚ)).cons 7⟩ = 0 := by
  have h := classIndex_argmax_spec ⟨[1, 22], (List.replicate 21 (0 : ℚ)).cons 7⟩ (by decide)
  rw [h.1]
  decide

/-- C3: score reconciliation keeps a length-22 read unchanged, truncates a
longer read to its first 22 values in order (squeezing never changes the
flat data, hence not its length), and fails with the
insufficient-output-classes error on a shorter read, in which case the
enclosing `predictImage` call produces no result. -/
theorem reconcileScores_spec (d : List ℚ) :
    (d.length = 22 → reconcileScores d = .ok d)
    ∧ (∀ k, 0 < k → d.length = 22 + k → reconcileScores d = .ok (d.take 22))
    ∧ (d.length < 22 → reconcileScores d = .error (.insufficientClasses d.length))
    ∧ (∀ env : PredEnv, ∀ sh, env.forward = some ⟨sh, d⟩ → d.length < 22 →
        (predictImage env).1 = none) := by
  refine ⟨fun h => ?_, fun k hk hl => ?_, fun h => ?_, fun env sh hfwd hlen => ?_⟩
  · unfold reconcileScores
    rw [if_pos h]
  · unfold reconcileScores
    rw [if_neg (by omega), if_pos (by omega)]
  · unfold reconcileScores
    rw [if_neg (by omega), if_neg (by omega)]
  · by_cases hm : env.model = false
    · simp [predictImage, hm]
    · unfold predictImage
      rw [if_neg hm]
      rcases himg : imageToTensor env.img with ⟨res, tr⟩
      cases res with
      | error e => rfl
      | ok t =>
          rw [hfwd]
          have hrec : reconcileScores d = .error (.insufficientClasses d.length) := by
            unfold reconcileScores
            rw [if_neg (by omega), if_neg (by omega)]
          simp only [hrec]

set_option maxRecDepth 8000 in
/-- Witness for C3 at reads of length 22, 30 and 10. -/
theorem reconcileScores_spec_witness :
    reconcileScores (List.replicate 22 (0 : ℚ)) = .ok (List.replicate 22 (0 : ℚ))
    ∧ reconcileScores (List.replicate 30 (0 : ℚ)) =
        .ok ((List.replicate 30 (0 : ℚ)).take 22)
    ∧ reconcileScores (List.replicate 10 (0 : ℚ)) =
        .error (.insufficientClasses 10)
    ∧ (predictImage ⟨true, imgEnvOk, some ⟨[1, 10], List.replicate 10 0⟩⟩).1 = none :=
  ⟨(reconcileScores_spec (List.replicate 22 0)).1 (by decide),
   (reconcileScores_spec (List.replicate 30 0)).2.1 8 (by decide) (by decide),
   by
    have := (reconcileScores_spec (List.replicate 10 0)).2.2.1 (by decide)
    simpa using this,
   (reconcileScores_spec (List.replicate 10 0)).2.2.2
     ⟨true, imgEnvOk, some ⟨[1, 10], List.replicate 10 0⟩⟩ [1, 10] rfl (by decide)⟩

/-- C10: `predictImage` never propagates an exception — its value is an
optional result.  A null model returns `null` immediately; a normalization
failure, a throwing forward pass and a reconciliation failure are all
caught and also return `null` (so `null` does not distinguish the
model-not-ready state from an internal failure); a call with a present
model, a successful normalization and at least 22 forward-pass outputs
produces a result. -/
theorem predictImage_null_spec (env : PredEnv) :
    (env.model = false → predictImage env = (none, 0))
    ∧ (∀ e tr, imageToTensor env.img = (.error e, tr) → (predictImage env).1 = none)
    ∧ (env.forward = none → (predictImage env).1 = none)
    ∧ (∀ raw, env.forward = some raw → raw.data.length < 22 →
        (predictImage env).1 = none)
    ∧ (∀ t tr raw, env.model = true → imageToTensor env.img = (.ok t, tr) →
        env.forward = some raw → 22 ≤ raw.data.length →
        ((predictImage env).1).isSome = true) := by
  refine ⟨fun hm => ?_, fun e tr himg => ?_, fun hf => ?_,
    fun raw hf hlen => ?_, fun t tr raw hm himg hf hlen => ?_⟩
  · simp [predictImage, hm]
  · by_cases hm : env.model = false
    · simp [predictImage, hm]
    · unfold predictImage
      rw [if_neg hm, himg]
  · by_cases hm : env.model = false
    · simp [predictImage, hm]
    · unfold predictImage
      rw [if_neg hm]
      rcases himg : imageToTensor env.img with ⟨res, tr⟩
      cases res with
      | error e => rfl
      | ok t => rw [hf]
  · by_cases hm : env.model = false
    · simp [predictImage, hm]
    · unfold predictImage
      rw [if_neg hm]
      rcases himg : imageToTensor env.img with ⟨res, tr⟩
      cases res with
      | error e => rfl
      | ok t =>
          rw [hf]
          have hrec : reconcileScores raw.data =
              .error (.insufficientClasses raw.data.length) := by
            unfold reconcileScores
            rw [if_neg (by omega), if_neg (by omega)]
          simp only [hrec]
  · unfold predictImage
    rw [if_neg (by simp [hm]), himg, hf]
    have hrec : ∃ s, reconcileScores raw.data = .ok s := by
      unfold reconcileScores
      by_cases h22 : raw.data.length = 22
      · exact ⟨raw.data, by rw [if_pos h22]⟩
      · exact ⟨raw.data.take 22, by rw [if_neg h22, if_pos (by omega)]⟩
    obtain ⟨s, hs⟩ := hrec
    simp only [hs]
    rfl

/-- Witness for C10: the model-absent call and an insufficient-output
call, both null. -/
theorem predictImage_null_spec_witness :
    predictImage ⟨false, imgEnvOk, none⟩ = (none, 0)
    ∧ (predictImage ⟨true, imgEnvOk, some ⟨[5], List.replicate 5 0⟩⟩).1 = none :=
  ⟨(predictImage_null_spec ⟨false, imgEnvOk, none⟩).1 rfl,
   (predictImage_null_spec ⟨true, imgEnvOk, some ⟨[5], List.replicate 5 0⟩⟩).2.2.2.1
     ⟨[5], List.replicate 5 0⟩ rfl (by decide)⟩

/-- C9: the smoke-test outcome passed to the loader never influences the
stored state — readiness, error and model handle are identical for a
passing and a failing smoke test; a successfully assembled model that
passes structural validation yields readiness with a cleared error and an
exposed handle; a model declaring zero inputs or zero outputs fails
validation, leaving readiness false with a recorded message, as does a
throwing deserialization/assembly step. -/
theorem loadModel_smoke_advisory (a : Except String GraphModel) (s1 s2 : Bool) :
    loadModel a s1 = loadModel a s2
    ∧ (∀ m, a = .ok m → validateModel m = true →
        loadModel a s1 = ⟨some m, true, none, "Ready"⟩)
    ∧ (∀ m, a = .ok m → validateModel m = false →
        loadModel a s1 = ⟨none, false, some "Model validation failed", "Failed"⟩)
    ∧ (∀ m, a = .ok m → (m.inputs = [] ∨ m.outputs = []) →
        validateModel m = false)
    ∧ (∀ e, a = .error e → loadModel a s1 = ⟨none, false, some e, "Failed"⟩) := by
  refine ⟨?_, fun m hm hv => ?_, fun m hm hv => ?_, fun m hm hio => ?_,
    fun e he => ?_⟩
  · cases a with
    | error e => rfl
    | ok m => simp only [loadModel]
  · subst hm
    simp [loadModel, hv]
  · subst hm
    simp [loadModel, hv]
  · subst hm
    unfold validateModel
    rcases hio with h | h
    · rw [h]
    · rw [h]
      cases m.inputs <;> rfl
  · subst he
    rfl

/-- Witness for C9: a model with declared shapes loads ready under both
smoke outcomes; an input-less model fails validation. -/
theorem loadModel_smoke_advisory_witness :
    loadModel (.ok ⟨[⟨some [some 1, some 224, some 224, some 3]⟩],
        [⟨some [some 1, some 22]⟩]⟩) false =
      ⟨some ⟨[⟨some [some 1, some 224, some 224, some 3]⟩],
        [⟨some [some 1, some 22]⟩]⟩, true, none, "Ready"⟩
    ∧ validateModel ⟨[], [⟨none⟩]⟩ = false :=
  ⟨(loadModel_smoke_advisory (.ok ⟨[⟨some [some 1, some 224, some 224, some 3]⟩],
      [⟨some [some 1, some 22]⟩]⟩) false true).2.1 _ rfl (by decide),
   (loadModel_smoke_advisory (.ok ⟨[], [⟨none⟩]⟩) false true).2.2.2.1
     ⟨[], [⟨none⟩]⟩ rfl (Or.inl rfl)⟩

/-- Auxiliary: the alternative path leaves the attempt counter and delays
untouched and increments the fallback counter exactly once. -/
theorem processImageAlternative_trace (env : ImgEnv) (tr : Trace) :
    (processImageAlternative env tr).2.attempts = tr.attempts
    ∧ (processImageAlternative env tr).2.fallbackCalls = tr.fallbackCalls + 1
    ∧ (processImageAlternative env tr).2.delays = tr.delays := by
  unfold processImageAlternative
  by_cases hr : env.fsReadOk = false
  · simp [hr]
  · rw [if_neg hr]
    cases hi : env.fallbackImage with
    | none => simp
    | some img =>
        by_cases hd : img.h ≠ 224 ∨ img.w ≠ 224
        · by_cases hc : img.c ≠ 3 <;> simp [hd, hc]
        · by_cases hc : img.c ≠ 3 <;> simp [hd, hc]

/-- Auxiliary: the retry loop makes at most `fuel` further manipulator
attempts and enters the alternative path at most once. -/
theorem primaryLoop_bounds (env : ImgEnv) : ∀ fuel rc tr,
    (primaryLoop env fuel rc tr).2.attempts ≤ tr.attempts + fuel
    ∧ (primaryLoop env fuel rc tr).2.fallbackCalls ≤ tr.fallbackCalls + 1 := by
  intro fuel
  induction fuel with
  | zero => intro rc tr; simp [primaryLoop]
  | succ f ih =>
      intro rc tr
      unfold primaryLoop
      by_cases h3 : rc < 3
      · rw [if_pos h3]
        cases hm : env.manipulate rc with
        | some r =>
            by_cases hb : r.hasBase64 = false <;> by_cases hc : r.image.c ≠ 3 <;>
              simp [hb, hc]
        | none =>
            by_cases hrc : 3 ≤ rc + 1
            · rw [if_pos hrc]
              have h := processImageAlternative_trace env
                { tr with attempts := tr.attempts + 1 }
              refine ⟨?_, ?_⟩
              · simp [h.1]
              · simp [h.2.1]
            · rw [if_neg hrc]
              have h := ih (rc + 1)
                ⟨tr.attempts + 1, tr.delays ++ [200 * (rc + 1)],
                 tr.fallbackCalls, tr.resizeCalls, tr.live⟩
              refine ⟨h.1.trans (by simp; omega), h.2⟩
      · rw [if_neg h3]
        refine ⟨by simp, by simp⟩

/-- Auxiliary: one normalization call makes at most 3 manipulator attempts
and runs the alternative path at most once. -/
theorem imageToTensor_bounds (env : ImgEnv) :
    (imageToTensor env).2.attempts ≤ 3 ∧ (imageToTensor env).2.fallbackCalls ≤ 1 := by
  unfold imageToTensor
  by_cases h1 : strTrim env.uri = ""
  · simp [h1, Trace.init]
  · rw [if_neg h1]
    by_cases h2 : (strIncludes env.uri "files/crop_image_"
        || strIncludes env.uri "files/gallery_image_") = true
    · rw [if_pos h2]
      have h := processImageAlternative_trace env Trace.init
      refine ⟨?_, ?_⟩
      · rw [h.1]
        simp [Trace.init]
      · rw [h.2.1]
        simp [Trace.init]
    · rw [if_neg h2]
      have h := primaryLoop_bounds env 3 0 Trace.init
      exact ⟨h.1.trans (by simp [Trace.init]), h.2.trans (by simp [Trace.init])⟩

/-- C7: on a photo whose primary resize/encode pipeline fails at every
attempt, `imageToTensor` tries the manipulator exactly 3 times with
increasing backoff delays of 200 ms and 400 ms between attempts, then runs
the direct-read fallback exactly once, and when that fallback's file read
also fails (e.g. a non-existent file) the whole call fails with a
normalization error and no live buffer.  In general at most 3 attempts and
at most one fallback happen, and the fallback bilinear-resizes exactly
when the decoded spatial dimensions differ from 224×224. -/
theorem imageToTensor_retry_fallback (env : ImgEnv)
    (hne : strTrim env.uri ≠ "")
    (hp1 : strIncludes env.uri "files/crop_image_" = false)
    (hp2 : strIncludes env.uri "files/gallery_image_" = false)
    (hfail : ∀ k, env.manipulate k = none)
    (hread : env.fsReadOk = false) :
    imageToTensor env = (.error (.allFailed .readFailed), ⟨3, [200, 400], 1, 0, 0⟩)
    ∧ (∀ env' : ImgEnv, (imageToTensor env').2.attempts ≤ 3
        ∧ (imageToTensor env').2.fallbackCalls ≤ 1)
    ∧ (∀ (env' : ImgEnv) (img : PixelImage) (tr : Trace),
        env'.fsReadOk = true → env'.fallbackImage = some img →
        (img.h = 224 → img.w = 224 →
          (processImageAlternative env' tr).2.resizeCalls = tr.resizeCalls)
        ∧ ((img.h ≠ 224 ∨ img.w ≠ 224) →
          (processImageAlternative env' tr).2.resizeCalls = tr.resizeCalls + 1)) := by
  refine ⟨?_, imageToTensor_bounds, ?_⟩
  · unfold imageToTensor
    rw [if_neg hne, if_neg (by simp [hp1, hp2])]
    simp [primaryLoop, hfail, processImageAlternative, hread, Trace.init]
  · intro env' img tr hr hi
    unfold processImageAlternative
    rw [if_neg (by simp [hr]), hi]
    refine ⟨fun hh hw => ?_, fun hd => ?_⟩
    · simp only [hh, hw]
      simp only [ne_eq, not_true_eq_false, false_or, or_self, if_false, ite_false]
      split <;> rfl
    · rcases hd with hd | hd <;> simp [hd] <;> split <;> rfl

/-- Witness for C7: a non-permanent URI whose manipulator always throws
and whose file read fails. -/
theorem imageToTensor_retry_fallback_witness :
    imageToTensor ⟨"missing.jpg", fun _ => none, false, none, id⟩ =
      (.error (.allFailed .readFailed), ⟨3, [200, 400], 1, 0, 0⟩) :=
  (imageToTensor_retry_fallback ⟨"missing.jpg", fun _ => none, false, none, id⟩
    (by decide) (by decide) (by decide) (fun k => rfl) rfl).1

/-- C8: a decoded pixel tensor (`decodeJpeg` always yields rank 3, so the
rank-and-channel validation reduces to the channel count) with channel
count other than 3 makes the call fail with the invalid-image-data error on
the primary path, and with the same error wrapped by the fallback's
catch-all on the alternative path, and no tensor is returned; with 3
channels the returned tensor is `[1, 224, 224, 3]` (the primary path's
spatial size being the 224×224 the manipulator was asked for) and every
value is the corresponding final pixel byte divided by 255 (the fallback
resizes first when the decoded size differs from 224×224). -/
theorem imageToTensor_shape_contract :
    (∀ (env : ImgEnv) (r : ManipResult),
      strTrim env.uri ≠ "" →
      strIncludes env.uri "files/crop_image_" = false →
      strIncludes env.uri "files/gallery_image_" = false →
      env.manipulate 0 = some r → r.hasBase64 = true →
      ((r.image.c ≠ 3 → (imageToTensor env).1 =
          .error (.invalidShape [r.image.h, r.image.w, r.image.c]))
      ∧ (r.image.c = 3 → (imageToTensor env).1 =
          .ok ⟨[1, r.image.h, r.image.w, 3],
               r.image.data.map (fun b => (b : ℚ) / 255)⟩)))
    ∧ (∀ (env : ImgEnv) (img : PixelImage) (tr : Trace),
        env.fsReadOk = true → env.fallbackImage = some img →
        ((img.c ≠ 3 → (processImageAlternative env tr).1 =
            .error (.allFailed (.invalidShape [224, 224, img.c])))
        ∧ (img.c = 3 → img.h = 224 → img.w = 224 →
            (processImageAlternative env tr).1 =
              .ok ⟨[1, 224, 224, 3], img.data.map (fun b => (b : ℚ) / 255)⟩)
        ∧ (img.c = 3 → (img.h ≠ 224 ∨ img.w ≠ 224) →
            (processImageAlternative env tr).1 =
              .ok ⟨[1, 224, 224, 3],
                   (env.resizeBilinear img).data.map (fun b => (b : ℚ) / 255)⟩))) := by
  constructor
  · intro env r hne hp1 hp2 hm0 hb
    have hmain : imageToTensor env = primaryLoop env 3 0 Trace.init := by
      unfold imageToTensor
      rw [if_neg hne, if_neg (by simp [hp1, hp2])]
    rw [hmain]
    refine ⟨fun hc => ?_, fun hc => ?_⟩ <;> simp [primaryLoop, hm0, hb, hc]
  · intro env img tr hr hi
    unfold processImageAlternative
    rw [if_neg (by simp [hr]), hi]
    refine ⟨fun hc => ?_, fun hc hh hw => ?_, fun hc hd => ?_⟩
    · by_cases hd : img.h ≠ 224 ∨ img.w ≠ 224
      · simp [hd, hc]
      · push_neg at hd
        simp [hd.1, hd.2, hc]
    · simp [hh, hw, hc]
    · rcases hd with hd | hd <;> simp [hd, hc]

/-- Witness for C8: a 224×224 4-channel decode fails with the
invalid-image-data error; a 224×224 3-channel decode normalizes to
`[1, 224, 224, 3]` with values divided by 255. -/
theorem imageToTensor_shape_contract_witness :
    (imageToTensor ⟨"photo.jpg", fun _ => some ⟨true, ⟨224, 224, 4, []⟩⟩,
        true, none, id⟩).1 = .error (.invalidShape [224, 224, 4])
    ∧ (imageToTensor ⟨"photo.jpg", fun _ => some ⟨true, ⟨224, 224, 3, [0, 51, 255]⟩⟩,
        true, none, id⟩).1 =
      .ok ⟨[1, 224, 224, 3], [0, 51 / 255, 1]⟩ :=
  ⟨(imageToTensor_shape_contract.1
      ⟨"photo.jpg", fun _ => some ⟨true, ⟨224, 224, 4, []⟩⟩, true, none, id⟩
      ⟨true, ⟨224, 224, 4, []⟩⟩ (by decide) (by decide) (by decide) rfl rfl).1
    (by decide),
   by
    have h := (imageToTensor_shape_contract.1
      ⟨"photo.jpg", fun _ => some ⟨true, ⟨224, 224, 3, [0, 51, 255]⟩⟩, true, none, id⟩
      ⟨true, ⟨224, 224, 3, [0, 51, 255]⟩⟩ (by decide) (by decide) (by decide) rfl rfl).2
      rfl
    simpa using h⟩

/-- A forward pass whose flat output is 10 zeros in shape `[1, 10]`:
reconciliation fails on it. -/
def rawLen10 : RawTensor := ⟨[1, 10], List.replicate 10 0⟩

/-- A forward pass whose flat output is 22 zeros in shape `[1, 22]`. -/
def rawLen22 : RawTensor := ⟨[1, 22], List.replicate 22 0⟩

set_option maxRecDepth 8000 in
/-- C4 refutation (code bug): the resource-release invariant fails.  On the
reconciliation-error path `predictImage` disposes nothing, leaving 4 live
buffers (the normalizer's undisposed `expandDims` intermediate, the
returned input tensor, the raw prediction and the squeezed prediction);
even a fully successful call leaves 2 (the `expandDims` intermediate and
the tensor allocated by `argMax`, which is never disposed), and a
successful `imageToTensor` call leaves its `expandDims` intermediate live
beyond the returned result. -/
theorem predictImage_leaks_buffers :
    predictImage ⟨true, imgEnvOk, some rawLen10⟩ = (none, 4)
    ∧ (predictImage ⟨true, imgEnvOk, some rawLen22⟩).2 = 2
    ∧ (imageToTensor imgEnvOk).2.live = 2
    ∧ (4 : Nat) ≠ 0 ∧ (2 : Nat) ≠ 0 := by
  refine ⟨by decide, by decide, by decide, by decide, by decide⟩
